import Mathlib

/-!
A shallow embedding of `txtconv.py` (text-file charset converter), covering the
encoding-detection wrapper `detect_encoding` and the decode/convert engine
`convert_encoding`, together with faithful models of the Python codecs the
program can reach (cp1250, iso8859-2, latin-1, ascii, utf-8, utf-8-sig,
utf-16-le/be/plain).

Modelling conventions:
- A byte is a `Nat` (file contents always satisfy `b < 256`; decoders reject
  anything else).  Unicode text is a list of code points (`List Nat`).
- The statistical detector (`chardet`) is an external collaborator; its result
  is passed to the engine as an explicit `Detection` value.  `chardet.detect`
  always returns a dict containing the keys `encoding` (a `str` or `None`) and
  `confidence` (a float), so Python's `dict.get` — whose default applies only
  when a key is absent — always returns the stored value; the model therefore
  reads the fields directly.
- File-system effects are reified: the engine result records whether the input
  file was read and the final content of the output path (`none` = the path
  was neither created nor modified; `some bs` = it was created/truncated and
  now holds exactly the bytes `bs`).  Python's `TextIOWrapper.write` buffers
  nothing when the incremental encoder raises, so an encode failure leaves a
  created, zero-byte output file.
- A decode attempt with a label outside the modelled fragment of Python's
  codec registry stands for `LookupError` ("unknown encoding"); the fragment
  covers every codec name reachable from this program's code paths.
-/

namespace TxtConv

/-- Python `str.upper()` restricted to ASCII, which is all the program feeds it. -/
def pyUpper (s : String) : String := String.mk (s.data.map Char.toUpper)

/-- Python `str.lower()` restricted to ASCII. -/
def pyLower (s : String) : String := String.mk (s.data.map Char.toLower)

/-- Does the character list start with `u`, `t`, `f`? -/
def utfHere : List Char → Bool
  | 'u' :: 't' :: 'f' :: _ => true
  | _ => false

/-- Does the character list contain `utf` as a contiguous run? -/
def utfWithin : List Char → Bool
  | [] => false
  | c :: rest => utfHere (c :: rest) || utfWithin rest

/-- The source's check `'utf' in detected_encoding.lower()` (substring test on
the lower-cased label). -/
def hasUtf (s : String) : Bool := utfWithin (pyLower s).data

/-- Python's codec-name normalisation: lower-case, non-alphanumerics to `_`
(as performed by `codecs.lookup` together with `encodings.normalize_encoding`). -/
def normEnc (s : String) : String :=
  String.mk (s.data.map (fun c => if c.isAlphanum then c.toLower else '_'))

/-- Look up the code point for a byte in a (byte, code point) table. -/
def tblToChar (t : List (Nat × Nat)) (b : Nat) : Option Nat :=
  (t.find? (fun p => p.1 == b)).map (·.2)

/-- Look up the byte for a code point in a (byte, code point) table. -/
def tblToByte (t : List (Nat × Nat)) (c : Nat) : Option Nat :=
  (t.find? (fun p => p.2 == c)).map (·.1)

/-- CPython's `cp1250` decoding table for bytes ≥ 0x80.  The five bytes
0x81, 0x83, 0x88, 0x90, 0x98 are undefined (decode errors). -/
def cp1250Table : List (Nat × Nat) := [
  (0x80, 0x20ac), (0x82, 0x201a), (0x84, 0x201e), (0x85, 0x2026), (0x86, 0x2020), (0x87, 0x2021),
  (0x89, 0x2030), (0x8a, 0x160), (0x8b, 0x2039), (0x8c, 0x15a), (0x8d, 0x164), (0x8e, 0x17d),
  (0x8f, 0x179), (0x91, 0x2018), (0x92, 0x2019), (0x93, 0x201c), (0x94, 0x201d), (0x95, 0x2022),
  (0x96, 0x2013), (0x97, 0x2014), (0x99, 0x2122), (0x9a, 0x161), (0x9b, 0x203a), (0x9c, 0x15b),
  (0x9d, 0x165), (0x9e, 0x17e), (0x9f, 0x17a), (0xa0, 0xa0), (0xa1, 0x2c7), (0xa2, 0x2d8),
  (0xa3, 0x141), (0xa4, 0xa4), (0xa5, 0x104), (0xa6, 0xa6), (0xa7, 0xa7), (0xa8, 0xa8),
  (0xa9, 0xa9), (0xaa, 0x15e), (0xab, 0xab), (0xac, 0xac), (0xad, 0xad), (0xae, 0xae),
  (0xaf, 0x17b), (0xb0, 0xb0), (0xb1, 0xb1), (0xb2, 0x2db), (0xb3, 0x142), (0xb4, 0xb4),
  (0xb5, 0xb5), (0xb6, 0xb6), (0xb7, 0xb7), (0xb8, 0xb8), (0xb9, 0x105), (0xba, 0x15f),
  (0xbb, 0xbb), (0xbc, 0x13d), (0xbd, 0x2dd), (0xbe, 0x13e), (0xbf, 0x17c), (0xc0, 0x154),
  (0xc1, 0xc1), (0xc2, 0xc2), (0xc3, 0x102), (0xc4, 0xc4), (0xc5, 0x139), (0xc6, 0x106),
  (0xc7, 0xc7), (0xc8, 0x10c), (0xc9, 0xc9), (0xca, 0x118), (0xcb, 0xcb), (0xcc, 0x11a),
  (0xcd, 0xcd), (0xce, 0xce), (0xcf, 0x10e), (0xd0, 0x110), (0xd1, 0x143), (0xd2, 0x147),
  (0xd3, 0xd3), (0xd4, 0xd4), (0xd5, 0x150), (0xd6, 0xd6), (0xd7, 0xd7), (0xd8, 0x158),
  (0xd9, 0x16e), (0xda, 0xda), (0xdb, 0x170), (0xdc, 0xdc), (0xdd, 0xdd), (0xde, 0x162),
  (0xdf, 0xdf), (0xe0, 0x155), (0xe1, 0xe1), (0xe2, 0xe2), (0xe3, 0x103), (0xe4, 0xe4),
  (0xe5, 0x13a), (0xe6, 0x107), (0xe7, 0xe7), (0xe8, 0x10d), (0xe9, 0xe9), (0xea, 0x119),
  (0xeb, 0xeb), (0xec, 0x11b), (0xed, 0xed), (0xee, 0xee), (0xef, 0x10f), (0xf0, 0x111),
  (0xf1, 0x144), (0xf2, 0x148), (0xf3, 0xf3), (0xf4, 0xf4), (0xf5, 0x151), (0xf6, 0xf6),
  (0xf7, 0xf7), (0xf8, 0x159), (0xf9, 0x16f), (0xfa, 0xfa), (0xfb, 0x171), (0xfc, 0xfc),
  (0xfd, 0xfd), (0xfe, 0x163), (0xff, 0x2d9)]

/-- CPython's `iso8859_2` decoding table for bytes ≥ 0xA0 (bytes 0x00–0x9F
decode to themselves; every byte is defined — the codec's decode is total). -/
def iso8859_2Table : List (Nat × Nat) := [
  (0xa0, 0xa0), (0xa1, 0x104), (0xa2, 0x2d8), (0xa3, 0x141), (0xa4, 0xa4), (0xa5, 0x13d),
  (0xa6, 0x15a), (0xa7, 0xa7), (0xa8, 0xa8), (0xa9, 0x160), (0xaa, 0x15e), (0xab, 0x164),
  (0xac, 0x179), (0xad, 0xad), (0xae, 0x17d), (0xaf, 0x17b), (0xb0, 0xb0), (0xb1, 0x105),
  (0xb2, 0x2db), (0xb3, 0x142), (0xb4, 0xb4), (0xb5, 0x13e), (0xb6, 0x15b), (0xb7, 0x2c7),
  (0xb8, 0xb8), (0xb9, 0x161), (0xba, 0x15f), (0xbb, 0x165), (0xbc, 0x17a), (0xbd, 0x2dd),
  (0xbe, 0x17e), (0xbf, 0x17c), (0xc0, 0x154), (0xc1, 0xc1), (0xc2, 0xc2), (0xc3, 0x102),
  (0xc4, 0xc4), (0xc5, 0x139), (0xc6, 0x106), (0xc7, 0xc7), (0xc8, 0x10c), (0xc9, 0xc9),
  (0xca, 0x118), (0xcb, 0xcb), (0xcc, 0x11a), (0xcd, 0xcd), (0xce, 0xce), (0xcf, 0x10e),
  (0xd0, 0x110), (0xd1, 0x143), (0xd2, 0x147), (0xd3, 0xd3), (0xd4, 0xd4), (0xd5, 0x150),
  (0xd6, 0xd6), (0xd7, 0xd7), (0xd8, 0x158), (0xd9, 0x16e), (0xda, 0xda), (0xdb, 0x170),
  (0xdc, 0xdc), (0xdd, 0xdd), (0xde, 0x162), (0xdf, 0xdf), (0xe0, 0x155), (0xe1, 0xe1),
  (0xe2, 0xe2), (0xe3, 0x103), (0xe4, 0xe4), (0xe5, 0x13a), (0xe6, 0x107), (0xe7, 0xe7),
  (0xe8, 0x10d), (0xe9, 0xe9), (0xea, 0x119), (0xeb, 0xeb), (0xec, 0x11b), (0xed, 0xed),
  (0xee, 0xee), (0xef, 0x10f), (0xf0, 0x111), (0xf1, 0x144), (0xf2, 0x148), (0xf3, 0xf3),
  (0xf4, 0xf4), (0xf5, 0x151), (0xf6, 0xf6), (0xf7, 0xf7), (0xf8, 0x159), (0xf9, 0x16f),
  (0xfa, 0xfa), (0xfb, 0x171), (0xfc, 0xfc), (0xfd, 0xfd), (0xfe, 0x163), (0xff, 0x2d9)]

/-- Decode one byte under cp1250 (`windows-1250`). -/
def cp1250DecByte (b : Nat) : Option Nat :=
  if b < 0x80 then some b else tblToChar cp1250Table b

/-- Encode one code point under cp1250. -/
def cp1250EncChar (c : Nat) : Option Nat :=
  if c < 0x80 then some c else tblToByte cp1250Table c

/-- Decode one byte under iso8859-2. -/
def iso8859_2DecByte (b : Nat) : Option Nat :=
  if b < 0xa0 then some b else tblToChar iso8859_2Table b

/-- Encode one code point under iso8859-2. -/
def iso8859_2EncChar (c : Nat) : Option Nat :=
  if c < 0xa0 then some c else tblToByte iso8859_2Table c

/-- Decode one byte under latin-1 (total on real bytes). -/
def latin1DecByte (b : Nat) : Option Nat := if b < 0x100 then some b else none

/-- Encode one code point under latin-1. -/
def latin1EncChar (c : Nat) : Option Nat := if c < 0x100 then some c else none

/-- Decode one byte under ascii (strict). -/
def asciiDecByte (b : Nat) : Option Nat := if b < 0x80 then some b else none

/-- Encode one code point under ascii. -/
def asciiEncChar (c : Nat) : Option Nat := if c < 0x80 then some c else none

/-- Map a fallible per-element function over a list, failing if any element
fails (the shape of a single-byte codec applied to a whole buffer). -/
def mapOpt (f : Nat → Option Nat) : List Nat → Option (List Nat)
  | [] => some []
  | b :: rest =>
    match f b with
    | some c => (mapOpt f rest).map (c :: ·)
    | none => none

/-- Strict UTF-8 encoding of one Unicode scalar value. -/
def utf8EncChar (c : Nat) : Option (List Nat) :=
  if c < 0x80 then some [c]
  else if c < 0x800 then some [0xc0 + c / 0x40, 0x80 + c % 0x40]
  else if c < 0x10000 then
    if 0xd800 ≤ c ∧ c ≤ 0xdfff then none
    else some [0xe0 + c / 0x1000, 0x80 + (c / 0x40) % 0x40, 0x80 + c % 0x40]
  else if c < 0x110000 then
    some [0xf0 + c / 0x40000, 0x80 + (c / 0x1000) % 0x40, 0x80 + (c / 0x40) % 0x40,
          0x80 + c % 0x40]
  else none

/-- Strict UTF-8 encoding of a text. -/
def utf8Enc : List Nat → Option (List Nat)
  | [] => some []
  | c :: rest =>
    match utf8EncChar c with
    | some bs => (utf8Enc rest).map (bs ++ ·)
    | none => none

/-- Strict UTF-8 decoding (rejects overlong forms, surrogates, out-of-range
lead bytes and truncated sequences, as CPython's strict `utf-8` codec does). -/
def utf8Dec : List Nat → Option (List Nat)
  | [] => some []
  | b :: rest =>
    if b < 0x80 then (utf8Dec rest).map (b :: ·)
    else if b < 0xc2 then none
    else if b < 0xe0 then
      match rest with
      | [] => none
      | b1 :: rest1 =>
        if 0x80 ≤ b1 ∧ b1 < 0xc0 then
          (utf8Dec rest1).map (((b - 0xc0) * 0x40 + (b1 - 0x80)) :: ·)
        else none
    else if b < 0xf0 then
      match rest with
      | [] => none
      | b1 :: rest1 =>
        match rest1 with
        | [] => none
        | b2 :: rest2 =>
          if (if b = 0xe0 then 0xa0 ≤ b1 ∧ b1 < 0xc0
              else if b = 0xed then 0x80 ≤ b1 ∧ b1 < 0xa0
              else 0x80 ≤ b1 ∧ b1 < 0xc0) ∧ 0x80 ≤ b2 ∧ b2 < 0xc0 then
            (utf8Dec rest2).map
              (((b - 0xe0) * 0x1000 + (b1 - 0x80) * 0x40 + (b2 - 0x80)) :: ·)
          else none
    else if b < 0xf5 then
      match rest with
      | [] => none
      | b1 :: rest1 =>
        match rest1 with
        | [] => none
        | b2 :: rest2 =>
          match rest2 with
          | [] => none
          | b3 :: rest3 =>
            if (if b = 0xf0 then 0x90 ≤ b1 ∧ b1 < 0xc0
                else if b = 0xf4 then 0x80 ≤ b1 ∧ b1 < 0x90
                else 0x80 ≤ b1 ∧ b1 < 0xc0) ∧ (0x80 ≤ b2 ∧ b2 < 0xc0) ∧
               0x80 ≤ b3 ∧ b3 < 0xc0 then
              (utf8Dec rest3).map
                (((b - 0xf0) * 0x40000 + (b1 - 0x80) * 0x1000 + (b2 - 0x80) * 0x40 +
                  (b3 - 0x80)) :: ·)
            else none
    else none

/-- Drop a UTF-8 byte-order mark if the buffer starts with one. -/
def stripBom : List Nat → List Nat
  | 0xef :: 0xbb :: 0xbf :: rest => rest
  | bs => bs

/-- `utf-8-sig` decoding: an optional BOM, then strict UTF-8. -/
def utf8sigDec (bs : List Nat) : Option (List Nat) := utf8Dec (stripBom bs)

/-- `utf-8-sig` encoding: a BOM, then strict UTF-8. -/
def utf8sigEnc (t : List Nat) : Option (List Nat) :=
  (utf8Enc t).map ([0xef, 0xbb, 0xbf] ++ ·)

/-- Group little-endian byte pairs into 16-bit units (odd length is an error). -/
def utf16leUnits : List Nat → Option (List Nat)
  | [] => some []
  | [_] => none
  | b0 :: b1 :: rest =>
    if b0 < 0x100 ∧ b1 < 0x100 then
      (utf16leUnits rest).map ((b0 + 0x100 * b1) :: ·)
    else none

/-- Group big-endian byte pairs into 16-bit units (odd length is an error). -/
def utf16beUnits : List Nat → Option (List Nat)
  | [] => some []
  | [_] => none
  | b0 :: b1 :: rest =>
    if b0 < 0x100 ∧ b1 < 0x100 then
      (utf16beUnits rest).map ((0x100 * b0 + b1) :: ·)
    else none

/-- Combine UTF-16 code units into scalar values, pairing surrogates strictly
(lone surrogates are decode errors, as in CPython's strict codec). -/
def utf16Scalars : List Nat → Option (List Nat)
  | [] => some []
  | [u] => if u < 0xd800 ∨ 0xdfff < u then some [u] else none
  | u :: v :: rest =>
    if u < 0xd800 ∨ 0xdfff < u then (utf16Scalars (v :: rest)).map (u :: ·)
    else if u < 0xdc00 then
      if 0xdc00 ≤ v ∧ v ≤ 0xdfff then
        (utf16Scalars rest).map ((0x10000 + (u - 0xd800) * 0x400 + (v - 0xdc00)) :: ·)
      else none
    else none

/-- `utf-16-le` decoding. -/
def utf16leDecode (bs : List Nat) : Option (List Nat) :=
  (utf16leUnits bs).bind utf16Scalars

/-- `utf-16-be` decoding. -/
def utf16beDecode (bs : List Nat) : Option (List Nat) :=
  (utf16beUnits bs).bind utf16Scalars

/-- Plain `utf-16` decoding: honour a BOM; with no BOM CPython assumes native
byte order, little-endian on this program's platforms. -/
def utf16Decode : List Nat → Option (List Nat)
  | 0xff :: 0xfe :: rest => utf16leDecode rest
  | 0xfe :: 0xff :: rest => utf16beDecode rest
  | bs => utf16leDecode bs

/-- UTF-16 code units for one scalar value (surrogate pair above the BMP). -/
def utf16EncCharUnits (c : Nat) : Option (List Nat) :=
  if 0xd800 ≤ c ∧ c ≤ 0xdfff then none
  else if c < 0x10000 then some [c]
  else if c < 0x110000 then
    some [0xd800 + (c - 0x10000) / 0x400, 0xdc00 + (c - 0x10000) % 0x400]
  else none

/-- `utf-16-le` encoding. -/
def utf16leEnc : List Nat → Option (List Nat)
  | [] => some []
  | c :: rest =>
    match utf16EncCharUnits c with
    | some us => (utf16leEnc rest).map ((us.flatMap (fun u => [u % 0x100, u / 0x100])) ++ ·)
    | none => none

/-- `utf-16-be` encoding. -/
def utf16beEnc : List Nat → Option (List Nat)
  | [] => some []
  | c :: rest =>
    match utf16EncCharUnits c with
    | some us => (utf16beEnc rest).map ((us.flatMap (fun u => [u / 0x100, u % 0x100])) ++ ·)
    | none => none

/-- Plain `utf-16` encoding: a little-endian BOM, then `utf-16-le`. -/
def utf16Enc (t : List Nat) : Option (List Nat) :=
  (utf16leEnc t).map ([0xff, 0xfe] ++ ·)

/-- The codecs reachable from the program's code paths. -/
inductive Codec
  | utf8 | utf8sig | utf16 | utf16le | utf16be | cp1250 | iso8859_2 | latin1 | ascii
deriving DecidableEq

/-- Decode a byte buffer under a codec. -/
def decodeC : Codec → List Nat → Option (List Nat)
  | .utf8, bs => utf8Dec bs
  | .utf8sig, bs => utf8sigDec bs
  | .utf16, bs => utf16Decode bs
  | .utf16le, bs => utf16leDecode bs
  | .utf16be, bs => utf16beDecode bs
  | .cp1250, bs => mapOpt cp1250DecByte bs
  | .iso8859_2, bs => mapOpt iso8859_2DecByte bs
  | .latin1, bs => mapOpt latin1DecByte bs
  | .ascii, bs => mapOpt asciiDecByte bs

/-- Encode a text under a codec. -/
def encodeC : Codec → List Nat → Option (List Nat)
  | .utf8, t => utf8Enc t
  | .utf8sig, t => utf8sigEnc t
  | .utf16, t => utf16Enc t
  | .utf16le, t => utf16leEnc t
  | .utf16be, t => utf16beEnc t
  | .cp1250, t => mapOpt cp1250EncChar t
  | .iso8859_2, t => mapOpt iso8859_2EncChar t
  | .latin1, t => mapOpt latin1EncChar t
  | .ascii, t => mapOpt asciiEncChar t

/-- The fragment of Python's codec registry relevant to this program: the
normalised names and aliases of the codecs above.  A name outside this
fragment models `LookupError` ("unknown encoding"). -/
def lookupCodec (label : String) : Option Codec :=
  let n := normEnc label
  if n = "utf_8" ∨ n = "utf8" ∨ n = "u8" ∨ n = "utf" ∨ n = "cp65001" then some .utf8
  else if n = "utf_8_sig" then some .utf8sig
  else if n = "utf_16" ∨ n = "u16" ∨ n = "utf16" then some .utf16
  else if n = "utf_16_le" ∨ n = "utf_16le" ∨ n = "unicodelittleunmarked" then some .utf16le
  else if n = "utf_16_be" ∨ n = "utf_16be" ∨ n = "unicodebigunmarked" then some .utf16be
  else if n = "cp1250" ∨ n = "windows_1250" ∨ n = "1250" then some .cp1250
  else if n = "iso8859_2" ∨ n = "iso_8859_2" ∨ n = "iso_8859_2_1987" ∨ n = "latin2" ∨
          n = "l2" ∨ n = "csisolatin2" then some .iso8859_2
  else if n = "latin_1" ∨ n = "latin1" ∨ n = "latin" ∨ n = "l1" ∨ n = "iso_8859_1" ∨
          n = "iso8859_1" ∨ n = "iso_8859_1_1987" ∨ n = "8859" ∨ n = "cp819" ∨
          n = "csisolatin1" then some .latin1
  else if n = "ascii" ∨ n = "us_ascii" ∨ n = "646" then some .ascii
  else none

/-- The source's `SUPPORTED_FORMATS` dict: target-format name to Python codec
name (`txtconv.py`, lines 30–38). -/
def SUPPORTED_FORMATS (k : String) : Option String :=
  if k = "UTF8" then some "utf-8"
  else if k = "UTF8WBOM" then some "utf-8"
  else if k = "UTF8BOM" then some "utf-8-sig"
  else if k = "ANSI" then some "cp1250"
  else if k = "ISO8859_2" then some "iso8859_2"
  else if k = "UTF16LE" then some "utf-16-le"
  else if k = "UTF16BE" then some "utf-16-be"
  else none

/-- The result dict of `chardet.detect`: the `encoding` key holds a string or
`None`, the `confidence` key a number (both keys are always present). -/
structure Detection where
  encoding : Option String
  confidence : Rat
deriving DecidableEq

/-- The source's `detect_encoding` (`txtconv.py`, lines 78–86).  Its input is
the outcome of reading the file (`.error e` models an `IOError` with message
`e`) plus the chardet result for the data.  Note `result.get('encoding',
'unknown')` returns the stored value — `None` included — because the key is
always present; the `'unknown'` default is dead. -/
def detect_encoding (readRes : Except String (List Nat)) (det : Detection) :
    Option String × Rat :=
  match readRes with
  | .error e => (some ("Error: " ++ e), 0)
  | .ok [] => (some "empty", 1)
  | .ok _ => (det.encoding, det.confidence)

/-- The hard-coded legacy priority list (`txtconv.py`, lines 114–117). -/
def legacyList : List String := ["windows-1250", "iso8859_2"]

/-- Lines 118–120: append chardet's suggestion unless it is `None` or already
one of the two hard-coded candidates (exact string comparison). -/
def encodingsToTry (detected : Option String) : List String :=
  match detected with
  | none => legacyList
  | some e => if e ∈ legacyList then legacyList else legacyList ++ [e]

/-- Outcome of `raw_data.decode(label)` for one candidate label. -/
inductive DecodeOutcome
  | ok (t : List Nat)
  | unicodeError
  | lookupError
deriving DecidableEq

/-- `raw_data.decode(label)`: look the label up in the codec registry
(failure is `LookupError`), then decode (failure is `UnicodeDecodeError`). -/
def pyDecode (label : String) (bs : List Nat) : DecodeOutcome :=
  match lookupCodec label with
  | none => .lookupError
  | some c =>
    match decodeC c bs with
    | some t => .ok t
    | none => .unicodeError

/-- The fallback loop (`txtconv.py`, lines 131–140): try candidates in order,
stop at the first success; `except (UnicodeDecodeError, TypeError)` silences a
failed decode and moves on, but a `LookupError` from an unknown codec name is
not caught and escapes (`.error ()`). -/
def firstDecode : List String → List Nat → Except Unit (Option (String × List Nat))
  | [], _ => .ok none
  | e :: rest, raw =>
    match pyDecode e raw with
    | .ok t => .ok (some (e, t))
    | .unicodeError => firstDecode rest raw
    | .lookupError => .error ()

/-- Lines 111–140 as one function: the `utf` preemption branch (which catches
only `UnicodeDecodeError`), then the fallback loop over the candidate list.
Returns the final value of the `text`/`enc` pair, or `.error ()` for an
uncaught `LookupError`. -/
def decodePhase (raw : List Nat) (detected : Option String) :
    Except Unit (Option (String × List Nat)) :=
  let toTry := encodingsToTry detected
  match detected with
  | some e =>
    if hasUtf e then
      match pyDecode e raw with
      | .ok t => .ok (some (e, t))
      | .unicodeError => firstDecode toTry raw
      | .lookupError => .error ()
    else firstDecode toTry raw
  | none => firstDecode toTry raw

/-- Encode a text under a codec given by its Python codec name. -/
def pyEncodeName (codecName : String) (t : List Nat) : Option (List Nat) :=
  match lookupCodec codecName with
  | some c => encodeC c t
  | none => none

/-- How one call of `convert_encoding` ends. -/
inductive ConvOutcome
  | readError
  | emptyCreated
  | saved
  | allDecodeFailed
  | writeFailed (keyError : Bool)
  | uncaughtLookupError
deriving DecidableEq

/-- Observable result of one `convert_encoding` call.  `inputRead` records
that the engine attempted to read the input file; `decoded` and `usedEncoding`
are the final values of the source's `text` and `enc` variables; `output` is
the final state of the output path (`none` = never created or modified). -/
structure ConvResult where
  outcome : ConvOutcome
  inputRead : Bool
  decoded : Option (List Nat)
  usedEncoding : Option String
  output : Option (List Nat)
deriving DecidableEq

/-- Lines 146–151: look the upper-cased format up in `SUPPORTED_FORMATS`
(a missing key raises `KeyError` before the output file is opened), open the
output file for writing (creating or truncating it) and write the re-encoded
text; an encoding error during the write is caught by `except Exception` and
leaves the freshly truncated file empty. -/
def writePhase (t : List Nat) (tfu : String) : ConvOutcome × Option (List Nat) :=
  match SUPPORTED_FORMATS tfu with
  | none => (.writeFailed true, none)
  | some codecName =>
    match pyEncodeName codecName t with
    | some bs => (.saved, some bs)
    | none => (.writeFailed false, some [])

/-- The source's `convert_encoding` (`txtconv.py`, lines 88–151).  `readRes =
none` models an `IOError`/`PermissionError` while reading the input; `det` is
the chardet result for the raw bytes (only consulted on the non-empty path,
mirroring line 106). -/
def convert_encoding (readRes : Option (List Nat)) (det : Detection)
    (target_format : String) : ConvResult :=
  let tfu := pyUpper target_format
  match readRes with
  | none => ⟨.readError, true, none, none, none⟩
  | some raw =>
    if raw = [] then ⟨.emptyCreated, true, none, none, some []⟩
    else
      match decodePhase raw det.encoding with
      | .error () => ⟨.uncaughtLookupError, true, none, none, none⟩
      | .ok none => ⟨.allDecodeFailed, true, none, none, none⟩
      | .ok (some (enc, t)) =>
        let res := writePhase t tfu
        ⟨res.1, true, some t, some enc, res.2⟩

/-- The CLI layer's format check (`txtconv.py`, line 333): `main` exits before
calling the engine when the upper-cased format is not a supported key. -/
def cliRejectsFormat (fmt : String) : Bool :=
  (SUPPORTED_FORMATS (pyUpper fmt)).isNone

/-- Code points of the Polish diacritics Ą ą Ć ć Ę ę Ł ł Ń ń Ó ó Ś ś Ź ź Ż ż. -/
def polishExtra : List Nat :=
  [0x104, 0x105, 0x106, 0x107, 0x118, 0x119, 0x141, 0x142, 0x143, 0x144,
   0xd3, 0xf3, 0x15a, 0x15b, 0x179, 0x17a, 0x17b, 0x17c]

/-- ASCII or a Polish diacritic. -/
def PolishChar (c : Nat) : Prop := c < 0x80 ∨ c ∈ polishExtra

instance (c : Nat) : Decidable (PolishChar c) := by
  unfold PolishChar; infer_instance

/-- Text consisting of ASCII characters plus Polish diacritics. -/
def PolishText (t : List Nat) : Prop := ∀ c ∈ t, PolishChar c

instance (t : List Nat) : Decidable (PolishText t) := by
  unfold PolishText; infer_instance

/-- One code point survives an encode/decode round trip under the given
per-character encoder and per-byte decoder. -/
def encDecOk (enc dec : Nat → Option Nat) (c : Nat) : Bool :=
  match enc c with
  | some b => dec b == some c
  | none => false

/-! ### Supporting lemmas -/

theorem encodingsToTry_head (d : Option String) :
    ∃ rest, encodingsToTry d = "windows-1250" :: rest := by
  cases d with
  | none => exact ⟨["iso8859_2"], rfl⟩
  | some e =>
    by_cases h : e ∈ legacyList
    · refine ⟨["iso8859_2"], ?_⟩
      show (if e ∈ legacyList then legacyList else legacyList ++ [e]) = _
      rw [if_pos h]
      rfl
    · refine ⟨["iso8859_2", e], ?_⟩
      show (if e ∈ legacyList then legacyList else legacyList ++ [e]) = _
      rw [if_neg h]
      rfl

theorem lookup_windows1250 : lookupCodec "windows-1250" = some Codec.cp1250 := by decide

theorem pyDecode_w1250 {raw t : List Nat} (ht : decodeC Codec.cp1250 raw = some t) :
    pyDecode "windows-1250" raw = .ok t := by
  simp [pyDecode, lookup_windows1250, ht]

theorem decodePhase_w1250 {raw t : List Nat} {d : Option String}
    (hno : ∀ e, d = some e → hasUtf e = false)
    (ht : decodeC Codec.cp1250 raw = some t) :
    decodePhase raw d = .ok (some ("windows-1250", t)) := by
  have hfd : ∀ rest, firstDecode ("windows-1250" :: rest) raw =
      .ok (some ("windows-1250", t)) := by
    intro rest
    simp [firstDecode, pyDecode_w1250 ht]
  obtain ⟨rest, hrest⟩ := encodingsToTry_head d
  cases d with
  | none =>
    simpa [decodePhase, hrest] using hfd rest
  | some e =>
    have hu := hno e rfl
    simp only [decodePhase, hu, Bool.false_eq_true, if_false]
    rw [hrest]
    exact hfd rest

theorem cp1250_decode_ascii {raw : List Nat} (h : ∀ b ∈ raw, b < 0x80) :
    decodeC Codec.cp1250 raw = some raw := by
  induction raw with
  | nil => rfl
  | cons b rest ih =>
    have hb : b < 0x80 := h b (by simp)
    have hr : ∀ x ∈ rest, x < 0x80 := fun x hx => h x (by simp [hx])
    have ihr := ih hr
    simp only [decodeC] at ihr ⊢
    simp [mapOpt, cp1250DecByte, hb, ihr]

/-! ### C5: empty input short-circuit -/

/-- C5: for every target format and every detector result, converting
zero-byte input creates an empty output file and reports the empty-file
outcome (never a failure); no decoding happens (`decoded = none`) and the
detector result is never consulted (the result does not depend on `det`). -/
theorem empty_input_short_circuit (fmt : String) (det : Detection) :
    convert_encoding (some []) det fmt =
      ⟨.emptyCreated, true, none, none, some []⟩ := rfl

/-! ### C8: detector label when chardet yields no encoding -/

/-- C8: when chardet yields no label (`encoding` key holds `None`, confidence
0), `detect_encoding` returns the `None` label itself, not the explicit string
`"unknown"` the spec promises — the `'unknown'` default of `dict.get` never
applies because the key is present. -/
theorem detect_none_label_returns_none :
    detect_encoding (.ok [197]) ⟨none, 0⟩ = (none, 0) ∧
      (none : Option String) ≠ some "unknown" := by
  exact ⟨rfl, by simp⟩

/-! ### C6: invalid target format -/

/-- Counterexample to C6: with the unsupported format `"BOGUS"`, the engine
still reads the input file and decodes it (so file I/O and decode work do
happen), failing only at the write step with a caught `KeyError`; and for an
empty input it even creates the output file and reports success. -/
theorem invalid_format_counterexample :
    (convert_encoding (some [65]) ⟨none, 0⟩ "BOGUS").inputRead = true ∧
    (convert_encoding (some [65]) ⟨none, 0⟩ "BOGUS").decoded = some [65] ∧
    (convert_encoding (some [65]) ⟨none, 0⟩ "BOGUS").outcome = .writeFailed true ∧
    convert_encoding (some []) ⟨none, 0⟩ "BOGUS" =
      ⟨.emptyCreated, true, none, none, some []⟩ := by
  refine ⟨by decide, by decide, by decide, by decide⟩

/-- C6 (amended): the engine performs no upfront format validation.  It always
reads the input first; with an unsupported format and non-empty, decodable
input it fails only at the write step (codec lookup `KeyError`, reported as a
write error, output path untouched); with empty input it creates an empty
output file and reports success despite the invalid format.  Early rejection
happens only in the CLI layer (`cliRejectsFormat`), which exits before the
engine runs. -/
theorem invalid_format_amended :
    (∀ fmt det raw e t, SUPPORTED_FORMATS (pyUpper fmt) = none → raw ≠ [] →
      decodePhase raw det.encoding = .ok (some (e, t)) →
      convert_encoding (some raw) det fmt =
        ⟨.writeFailed true, true, some t, some e, none⟩) ∧
    (∀ fmt det, SUPPORTED_FORMATS (pyUpper fmt) = none →
      convert_encoding (some []) det fmt =
        ⟨.emptyCreated, true, none, none, some []⟩) ∧
    (∀ fmt, cliRejectsFormat fmt = true ↔ SUPPORTED_FORMATS (pyUpper fmt) = none) := by
  refine ⟨?_, ?_, ?_⟩
  · intro fmt det raw e t hf hr hd
    simp [convert_encoding, hr, hd, writePhase, hf]
  · intro fmt det hf
    rfl
  · intro fmt
    simp [cliRejectsFormat, Option.isNone_iff_eq_none]

/-- Witness for C6 (amended) at concrete inputs. -/
theorem invalid_format_amended_witness :
    convert_encoding (some [65]) ⟨none, 0⟩ "BOGUS" =
      ⟨.writeFailed true, true, some [65], some "windows-1250", none⟩ ∧
    convert_encoding (some []) ⟨none, 0⟩ "BOGUS" =
      ⟨.emptyCreated, true, none, none, some []⟩ :=
  ⟨invalid_format_amended.1 "BOGUS" ⟨none, 0⟩ [65] "windows-1250" [65]
      (by decide) (by decide) rfl,
   invalid_format_amended.2.1 "BOGUS" ⟨none, 0⟩ (by decide)⟩

/-! ### C10: encode failure truncates the output -/

/-- C10: when decoding succeeded but re-encoding into the (valid) target
format fails, the output file has already been opened in write mode: the path
now exists as a freshly created/truncated file holding a (here: empty) prefix
of the converted bytes — unlike the total-decode-failure branch it is not
left unchanged. -/
theorem encode_failure_truncates_output (raw t : List Nat) (det : Detection)
    (fmt e cn : String) (hr : raw ≠ [])
    (hd : decodePhase raw det.encoding = .ok (some (e, t)))
    (hf : SUPPORTED_FORMATS (pyUpper fmt) = some cn)
    (he : pyEncodeName cn t = none) :
    convert_encoding (some raw) det fmt =
      ⟨.writeFailed false, true, some t, some e, some []⟩ := by
  simp [convert_encoding, hr, hd, writePhase, hf, he]

/-- Witness for C10: the bytes `b"Zaj\xb1\xe6"` decode under `windows-1250`
to `Zaj±ć`, whose `±` (U+00B1) is not representable in ISO 8859-2, so the
write step truncates the output file and then fails. -/
theorem encode_failure_truncates_output_witness :
    convert_encoding (some [0x5a, 0x61, 0x6a, 0xb1, 0xe6]) ⟨some "ISO-8859-1", 3/10⟩
        "ISO8859_2" =
      ⟨.writeFailed false, true, some [0x5a, 0x61, 0x6a, 0xb1, 0x107],
        some "windows-1250", some []⟩ :=
  encode_failure_truncates_output [0x5a, 0x61, 0x6a, 0xb1, 0xe6]
    [0x5a, 0x61, 0x6a, 0xb1, 0x107] ⟨some "ISO-8859-1", 3/10⟩ "ISO8859_2"
    "windows-1250" "iso8859_2" (by decide) rfl (by decide) (by decide)

/-! ### C2: Unicode preemption -/

/-- C2: for non-empty input whose detector label contains "utf"
(case-insensitively), that single encoding is tried first: if its decode
succeeds it is the one used (its text and label are what the engine carries
forward, so the legacy candidates are never attempted), and if its decode
fails with a `UnicodeDecodeError` the engine falls through to the normal
candidate list (legacy pair, then the appended label). -/
theorem utf_preemption (raw : List Nat) (det : Detection) (e fmt : String)
    (hne : raw ≠ []) (hdet : det.encoding = some e) (hutf : hasUtf e = true) :
    (∀ t, pyDecode e raw = .ok t →
      (convert_encoding (some raw) det fmt).usedEncoding = some e ∧
      (convert_encoding (some raw) det fmt).decoded = some t) ∧
    (pyDecode e raw = .unicodeError →
      decodePhase raw det.encoding = firstDecode (encodingsToTry (some e)) raw) := by
  constructor
  · intro t hok
    have hdp : decodePhase raw det.encoding = .ok (some (e, t)) := by
      rw [hdet]; simp [decodePhase, hutf, hok]
    simp [convert_encoding, hne, hdp]
  · intro hue
    rw [hdet]; simp [decodePhase, hutf, hue]

/-- Witness for C2: UTF-8 bytes of "ą" with detector label "utf-8". -/
theorem utf_preemption_witness :
    (convert_encoding (some [0xc4, 0x85]) ⟨some "utf-8", 99/100⟩ "UTF8").usedEncoding =
      some "utf-8" ∧
    (convert_encoding (some [0xc4, 0x85]) ⟨some "utf-8", 99/100⟩ "UTF8").decoded =
      some [0x105] :=
  (utf_preemption [0xc4, 0x85] ⟨some "utf-8", 99/100⟩ "utf-8" "UTF8"
      (by decide) rfl (by decide)).1 [0x105] rfl

/-! ### C1: legacy priority order -/

/-- Counterexample to C1: on the spec's own end-to-end example — raw bytes
`b"Zaj\xb1\xe6"` with target ISO8859_2 and a low-confidence non-"utf"
detector guess — the first candidate windows-1250 decodes 0xB1 to "±"
(U+00B1), not "ą" (U+0105): the decoded text is "Zaj±ć", not "Zająć", and
re-encoding it to ISO 8859-2 fails instead of producing output bytes. -/
theorem legacy_priority_counterexample :
    (convert_encoding (some [0x5a, 0x61, 0x6a, 0xb1, 0xe6]) ⟨some "ISO-8859-1", 3/10⟩
        "ISO8859_2").decoded = some [0x5a, 0x61, 0x6a, 0xb1, 0x107] ∧
    some [0x5a, 0x61, 0x6a, 0xb1, 0x107] ≠ some [0x5a, 0x61, 0x6a, 0x105, 0x107] ∧
    (convert_encoding (some [0x5a, 0x61, 0x6a, 0xb1, 0xe6]) ⟨some "ISO-8859-1", 3/10⟩
        "ISO8859_2").outcome = .writeFailed false ∧
    (convert_encoding (some [0x5a, 0x61, 0x6a, 0xb1, 0xe6]) ⟨some "ISO-8859-1", 3/10⟩
        "ISO8859_2").output = some [] := by
  exact ⟨by decide, by decide, by decide, by decide⟩

/-- C1 (amended): for non-"utf" detector labels the candidate list is
windows-1250 first, then iso8859_2, with the detector's label (if any and not
already one of those two) appended last, and bytes that decode validly under
windows-1250 are decoded with it (not with the detector's guess); however on
the concrete input `b"Zaj\xb1\xe6"` with target ISO8859_2 the windows-1250
decoding is "Zaj±ć" (not "Zająć"), and re-encoding it as ISO 8859-2 fails,
leaving a truncated empty output file. -/
theorem legacy_priority_amended :
    encodingsToTry none = ["windows-1250", "iso8859_2"] ∧
    (∀ e, e ≠ "windows-1250" → e ≠ "iso8859_2" →
      encodingsToTry (some e) = ["windows-1250", "iso8859_2", e]) ∧
    (∀ raw t (det : Detection) fmt, raw ≠ [] →
      (∀ e, det.encoding = some e → hasUtf e = false) →
      decodeC Codec.cp1250 raw = some t →
      (convert_encoding (some raw) det fmt).usedEncoding = some "windows-1250" ∧
      (convert_encoding (some raw) det fmt).decoded = some t) ∧
    convert_encoding (some [0x5a, 0x61, 0x6a, 0xb1, 0xe6]) ⟨some "ISO-8859-1", 3/10⟩
        "ISO8859_2" =
      ⟨.writeFailed false, true, some [0x5a, 0x61, 0x6a, 0xb1, 0x107],
        some "windows-1250", some []⟩ := by
  refine ⟨rfl, ?_, ?_, by decide⟩
  · intro e h1 h2
    have hm : e ∉ legacyList := by simp [legacyList, h1, h2]
    show (if e ∈ legacyList then legacyList else legacyList ++ [e]) = _
    rw [if_neg hm]
    rfl
  · intro raw t det fmt hne hno ht
    have hdp := decodePhase_w1250 hno ht
    simp [convert_encoding, hne, hdp]

/-- Witness for C1 (amended) at concrete inputs. -/
theorem legacy_priority_amended_witness :
    encodingsToTry (some "ascii") = ["windows-1250", "iso8859_2", "ascii"] ∧
    (convert_encoding (some [0x41]) ⟨some "ascii", 1⟩ "UTF8").usedEncoding =
      some "windows-1250" ∧
    (convert_encoding (some [0x41]) ⟨some "ascii", 1⟩ "UTF8").decoded = some [0x41] :=
  ⟨legacy_priority_amended.2.1 "ascii" (by decide) (by decide),
   legacy_priority_amended.2.2.1 [0x41] [0x41] ⟨some "ascii", 1⟩ "UTF8"
     (by decide) (fun e he => by injection he with h; rw [← h]; decide) (by decide)⟩

/-! ### C3: first success wins -/

/-- C3: the fallback loop stops at the first candidate whose decode succeeds:
a successful result splits the candidate list into silently-failed earlier
candidates, the winner, and never-attempted later ones; in particular for
pure-ASCII input (which decodes under every candidate) the first candidate
windows-1250 is the one used. -/
theorem first_success_wins :
    (∀ (l : List String) raw e t, firstDecode l raw = .ok (some (e, t)) →
      ∃ pre post, l = pre ++ e :: post ∧ pyDecode e raw = .ok t ∧
        ∀ f ∈ pre, pyDecode f raw = .unicodeError) ∧
    (∀ raw (det : Detection) fmt, raw ≠ [] → (∀ b ∈ raw, b < 0x80) →
      (∀ e, det.encoding = some e → hasUtf e = false) →
      (convert_encoding (some raw) det fmt).usedEncoding = some "windows-1250" ∧
      (convert_encoding (some raw) det fmt).decoded = some raw) := by
  constructor
  · intro l
    induction l with
    | nil => intro raw e t h; simp [firstDecode] at h
    | cons hd tl ih =>
      intro raw e t h
      cases hh : pyDecode hd raw with
      | ok t0 =>
        simp [firstDecode, hh] at h
        obtain ⟨he, ht⟩ := h
        subst he; subst ht
        exact ⟨[], tl, rfl, hh, by simp⟩
      | unicodeError =>
        simp only [firstDecode, hh] at h
        obtain ⟨pre, post, hl, hok, hpre⟩ := ih raw e t h
        refine ⟨hd :: pre, post, by rw [hl]; rfl, hok, ?_⟩
        intro f hf
        rcases List.mem_cons.mp hf with h1 | h2
        · rw [h1]; exact hh
        · exact hpre f h2
      | lookupError => simp [firstDecode, hh] at h
  · intro raw det fmt hne hascii hno
    have ht := cp1250_decode_ascii hascii
    have hdp := decodePhase_w1250 hno ht
    simp [convert_encoding, hne, hdp]

/-- Witness for C3 at concrete inputs. -/
theorem first_success_wins_witness :
    (∃ pre post, (["windows-1250", "iso8859_2"] : List String) =
        pre ++ "windows-1250" :: post ∧
      pyDecode "windows-1250" [0x41] = .ok [0x41] ∧
      ∀ f ∈ pre, pyDecode f [0x41] = .unicodeError) ∧
    (convert_encoding (some [0x41, 0x42]) ⟨none, 0⟩ "UTF8").usedEncoding =
      some "windows-1250" ∧
    (convert_encoding (some [0x41, 0x42]) ⟨none, 0⟩ "UTF8").decoded =
      some [0x41, 0x42] :=
  ⟨first_success_wins.1 ["windows-1250", "iso8859_2"] [0x41] "windows-1250" [0x41] rfl,
   first_success_wins.2 [0x41, 0x42] ⟨none, 0⟩ "UTF8" (by decide) (by decide)
     (fun e he => nomatch he)⟩

/-! ### C9: silent handling of candidate failures -/

/-- Counterexample to C9: a detector label naming no codec the platform knows
is not handled silently — with label "utf-x" the `LookupError` raised inside
the preemption branch is caught by no handler and escapes the engine (no
output is produced and no failure outcome is reported). -/
theorem unknown_utf_label_escapes :
    (convert_encoding (some [0x41]) ⟨some "utf-x", 0⟩ "UTF8").outcome =
      .uncaughtLookupError ∧
    (convert_encoding (some [0x41]) ⟨some "utf-x", 0⟩ "UTF8").output = none := by
  exact ⟨by decide, by decide⟩

/-- C9 (amended): a candidate whose decode fails with `UnicodeDecodeError` is
silently skipped and the next candidate is tried; but a detector label naming
no codec the platform knows raises `LookupError`, which the handlers (tuned
to `UnicodeDecodeError`/`TypeError`) do not catch: for a "utf"-containing
unknown label the exception escapes the engine. -/
theorem decode_failures_handled_silently :
    (∀ e rest raw, pyDecode e raw = .unicodeError →
      firstDecode (e :: rest) raw = firstDecode rest raw) ∧
    (∀ raw (det : Detection) e fmt, raw ≠ [] → det.encoding = some e →
      hasUtf e = true → lookupCodec e = none →
      convert_encoding (some raw) det fmt =
        ⟨.uncaughtLookupError, true, none, none, none⟩) := by
  constructor
  · intro e rest raw h
    simp [firstDecode, h]
  · intro raw det e fmt hne hdet hutf hlk
    have hpd : pyDecode e raw = .lookupError := by simp [pyDecode, hlk]
    have hdp : decodePhase raw det.encoding = .error () := by
      rw [hdet]; simp [decodePhase, hutf, hpd]
    simp [convert_encoding, hne, hdp]

/-- Witness for C9 (amended) at concrete inputs. -/
theorem decode_failures_handled_silently_witness :
    firstDecode ["windows-1250"] [0x81] = firstDecode [] [0x81] ∧
    convert_encoding (some [0x41]) ⟨some "utf-z", 0⟩ "UTF8" =
      ⟨.uncaughtLookupError, true, none, none, none⟩ :=
  ⟨decode_failures_handled_silently.1 "windows-1250" [] [0x81] (by decide),
   decode_failures_handled_silently.2 [0x41] ⟨some "utf-z", 0⟩ "utf-z" "UTF8"
     (by decide) rfl (by decide) (by decide)⟩

/-! ### Round-trip lemmas for the seven supported formats -/

theorem polishChar_lt {c : Nat} (hc : PolishChar c) : c < 0x800 := by
  rcases hc with h | h
  · omega
  · have hall : ∀ x ∈ polishExtra, x < 0x800 := by decide
    exact hall c h

theorem encDecOk_spec {enc dec : Nat → Option Nat} {c : Nat}
    (h : encDecOk enc dec c = true) :
    ∃ b, enc c = some b ∧ dec b = some c := by
  cases he : enc c with
  | none => simp [encDecOk, he] at h
  | some b =>
    simp [encDecOk, he] at h
    exact ⟨b, rfl, h⟩

theorem mapOpt_roundtrip {enc dec : Nat → Option Nat} (t : List Nat)
    (h : ∀ c ∈ t, encDecOk enc dec c = true) :
    ∃ bs, mapOpt enc t = some bs ∧ mapOpt dec bs = some t := by
  induction t with
  | nil => exact ⟨[], rfl, rfl⟩
  | cons c rest ih =>
    obtain ⟨b, hb, hdb⟩ := encDecOk_spec (h c (by simp))
    obtain ⟨bs, hbs, hds⟩ := ih (fun x hx => h x (by simp [hx]))
    exact ⟨b :: bs, by simp [mapOpt, hb, hbs], by simp [mapOpt, hdb, hds]⟩

theorem polish_cp1250_ok {c : Nat} (hc : PolishChar c) :
    encDecOk cp1250EncChar cp1250DecByte c = true := by
  rcases hc with h | h
  · have he : cp1250EncChar c = some c := by unfold cp1250EncChar; rw [if_pos h]
    have hd : cp1250DecByte c = some c := by unfold cp1250DecByte; rw [if_pos h]
    unfold encDecOk
    rw [he]
    show (cp1250DecByte c == some c) = true
    rw [hd]
    simp
  · have hall : ∀ x ∈ polishExtra, encDecOk cp1250EncChar cp1250DecByte x = true := by
      decide
    exact hall c h

theorem polish_iso8859_2_ok {c : Nat} (hc : PolishChar c) :
    encDecOk iso8859_2EncChar iso8859_2DecByte c = true := by
  rcases hc with h | h
  · have h2 : c < 0xa0 := by omega
    have he : iso8859_2EncChar c = some c := by unfold iso8859_2EncChar; rw [if_pos h2]
    have hd : iso8859_2DecByte c = some c := by unfold iso8859_2DecByte; rw [if_pos h2]
    unfold encDecOk
    rw [he]
    show (iso8859_2DecByte c == some c) = true
    rw [hd]
    simp
  · have hall : ∀ x ∈ polishExtra,
        encDecOk iso8859_2EncChar iso8859_2DecByte x = true := by decide
    exact hall c h

theorem utf8Dec_cons_ascii {c : Nat} (bs : List Nat) (h : c < 0x80) :
    utf8Dec (c :: bs) = (utf8Dec bs).map (c :: ·) := by
  conv_lhs => unfold utf8Dec
  rw [if_pos h]

theorem utf8EncChar_two {c : Nat} (h1 : 0x80 ≤ c) (h2 : c < 0x800) :
    utf8EncChar c = some [0xc0 + c / 0x40, 0x80 + c % 0x40] := by
  unfold utf8EncChar
  rw [if_neg (by omega), if_pos h2]

theorem utf8Dec_cons_two {c : Nat} (bs : List Nat) (h1 : 0x80 ≤ c) (h2 : c < 0x800) :
    utf8Dec ((0xc0 + c / 0x40) :: (0x80 + c % 0x40) :: bs) =
      (utf8Dec bs).map (c :: ·) := by
  have e1 : ¬ (0xc0 + c / 0x40 < 0x80) := by omega
  have e2 : ¬ (0xc0 + c / 0x40 < 0xc2) := by omega
  have e3 : 0xc0 + c / 0x40 < 0xe0 := by omega
  have e4 : 0x80 ≤ 0x80 + c % 0x40 ∧ 0x80 + c % 0x40 < 0xc0 := by omega
  have hv : (0xc0 + c / 0x40 - 0xc0) * 0x40 + (0x80 + c % 0x40 - 0x80) = c := by omega
  conv_lhs => unfold utf8Dec
  rw [if_neg e1, if_neg e2, if_pos e3]
  show (if 0x80 ≤ 0x80 + c % 0x40 ∧ 0x80 + c % 0x40 < 0xc0 then
      Option.map (fun x => ((0xc0 + c / 0x40 - 0xc0) * 0x40 + (0x80 + c % 0x40 - 0x80)) :: x)
        (utf8Dec bs)
    else none) = Option.map (fun x => c :: x) (utf8Dec bs)
  rw [if_pos e4]
  simp only [hv]

theorem utf8_roundtrip (t : List Nat) (h : ∀ c ∈ t, c < 0x800) :
    ∃ bs, utf8Enc t = some bs ∧ utf8Dec bs = some t := by
  induction t with
  | nil => exact ⟨[], rfl, rfl⟩
  | cons c rest ih =>
    have hc : c < 0x800 := h c (by simp)
    obtain ⟨bs, hbs, hds⟩ := ih (fun x hx => h x (by simp [hx]))
    by_cases ha : c < 0x80
    · refine ⟨c :: bs, ?_, ?_⟩
      · simp [utf8Enc, utf8EncChar, ha, hbs]
      · rw [utf8Dec_cons_ascii bs ha, hds]; rfl
    · have h1 : 0x80 ≤ c := by omega
      refine ⟨(0xc0 + c / 0x40) :: (0x80 + c % 0x40) :: bs, ?_, ?_⟩
      · simp [utf8Enc, utf8EncChar_two h1 hc, hbs]
      · rw [utf8Dec_cons_two bs h1 hc, hds]; rfl

theorem utf8sig_roundtrip (t : List Nat) (h : ∀ c ∈ t, c < 0x800) :
    ∃ bs, utf8sigEnc t = some bs ∧ utf8sigDec bs = some t := by
  obtain ⟨bs, hbs, hds⟩ := utf8_roundtrip t h
  refine ⟨[0xef, 0xbb, 0xbf] ++ bs, ?_, ?_⟩
  · simp [utf8sigEnc, hbs]
  · show utf8Dec (stripBom (0xef :: 0xbb :: 0xbf :: bs)) = some t
    rw [show stripBom (0xef :: 0xbb :: 0xbf :: bs) = bs from rfl, hds]

theorem utf16EncCharUnits_bmp {c : Nat} (h : c < 0xd800) :
    utf16EncCharUnits c = some [c] := by
  unfold utf16EncCharUnits
  rw [if_neg (by omega), if_pos (by omega)]

theorem utf16leUnits_pair {c : Nat} (bs : List Nat) (h : c < 0x10000) :
    utf16leUnits (c % 0x100 :: c / 0x100 :: bs) =
      (utf16leUnits bs).map ((c : Nat) :: ·) := by
  have h1 : c % 0x100 < 0x100 ∧ c / 0x100 < 0x100 := by omega
  have hv : c % 0x100 + 0x100 * (c / 0x100) = c := by omega
  simp [utf16leUnits, h1, hv]

theorem utf16beUnits_pair {c : Nat} (bs : List Nat) (h : c < 0x10000) :
    utf16beUnits (c / 0x100 :: c % 0x100 :: bs) =
      (utf16beUnits bs).map ((c : Nat) :: ·) := by
  have h1 : c / 0x100 < 0x100 ∧ c % 0x100 < 0x100 := by omega
  have hv : 0x100 * (c / 0x100) + c % 0x100 = c := by omega
  simp [utf16beUnits, h1, hv]

theorem utf16Scalars_cons {c : Nat} (us : List Nat) (h : c < 0xd800) :
    utf16Scalars (c :: us) = (utf16Scalars us).map (c :: ·) := by
  cases us with
  | nil => simp [utf16Scalars, h]
  | cons v rest => simp [utf16Scalars, h]

theorem utf16le_roundtrip (t : List Nat) (h : ∀ c ∈ t, c < 0xd800) :
    ∃ bs, utf16leEnc t = some bs ∧ utf16leDecode bs = some t := by
  induction t with
  | nil => exact ⟨[], rfl, rfl⟩
  | cons c rest ih =>
    have hc : c < 0xd800 := h c (by simp)
    obtain ⟨bs, hbs, hds⟩ := ih (fun x hx => h x (by simp [hx]))
    refine ⟨c % 0x100 :: c / 0x100 :: bs, ?_, ?_⟩
    · simp [utf16leEnc, utf16EncCharUnits_bmp hc, hbs]
    · unfold utf16leDecode at hds ⊢
      rw [utf16leUnits_pair bs (by omega)]
      cases hu : utf16leUnits bs with
      | none => rw [hu] at hds; simp at hds
      | some us =>
        rw [hu] at hds
        simp only [Option.some_bind] at hds
        simp [utf16Scalars_cons us hc, hds]

theorem utf16be_roundtrip (t : List Nat) (h : ∀ c ∈ t, c < 0xd800) :
    ∃ bs, utf16beEnc t = some bs ∧ utf16beDecode bs = some t := by
  induction t with
  | nil => exact ⟨[], rfl, rfl⟩
  | cons c rest ih =>
    have hc : c < 0xd800 := h c (by simp)
    obtain ⟨bs, hbs, hds⟩ := ih (fun x hx => h x (by simp [hx]))
    refine ⟨c / 0x100 :: c % 0x100 :: bs, ?_, ?_⟩
    · simp [utf16beEnc, utf16EncCharUnits_bmp hc, hbs]
    · unfold utf16beDecode at hds ⊢
      rw [utf16beUnits_pair bs (by omega)]
      cases hu : utf16beUnits bs with
      | none => rw [hu] at hds; simp at hds
      | some us =>
        rw [hu] at hds
        simp only [Option.some_bind] at hds
        simp [utf16Scalars_cons us hc, hds]

/-! ### C7: round trip through each supported format -/

/-- C7: for each of the seven supported target formats, encoding a text made
of ASCII characters plus Polish diacritics with the format's codec and then
decoding those bytes with the same codec recovers the original text. -/
theorem seven_formats_roundtrip (k cn : String) (t : List Nat)
    (hk : SUPPORTED_FORMATS k = some cn) (ht : PolishText t) :
    ∃ c, lookupCodec cn = some c ∧
      ∃ bs, encodeC c t = some bs ∧ decodeC c bs = some t := by
  have h800 : ∀ x ∈ t, x < 0x800 := fun x hx => polishChar_lt (ht x hx)
  have hd8 : ∀ x ∈ t, x < 0xd800 := fun x hx => by have := h800 x hx; omega
  have hcn : cn = "utf-8" ∨ cn = "utf-8-sig" ∨ cn = "cp1250" ∨ cn = "iso8859_2" ∨
      cn = "utf-16-le" ∨ cn = "utf-16-be" := by
    unfold SUPPORTED_FORMATS at hk
    split_ifs at hk <;> simp_all
  rcases hcn with h | h | h | h | h | h <;> subst h
  · exact ⟨.utf8, by decide, utf8_roundtrip t h800⟩
  · exact ⟨.utf8sig, by decide, utf8sig_roundtrip t h800⟩
  · refine ⟨.cp1250, by decide, ?_⟩
    exact mapOpt_roundtrip t (fun x hx => polish_cp1250_ok (ht x hx))
  · refine ⟨.iso8859_2, by decide, ?_⟩
    exact mapOpt_roundtrip t (fun x hx => polish_iso8859_2_ok (ht x hx))
  · exact ⟨.utf16le, by decide, utf16le_roundtrip t hd8⟩
  · exact ⟨.utf16be, by decide, utf16be_roundtrip t hd8⟩

/-- Witness for C7: "Zająć" through ISO8859_2. -/
theorem seven_formats_roundtrip_witness :
    ∃ c, lookupCodec "iso8859_2" = some c ∧
      ∃ bs, encodeC c [0x5a, 0x61, 0x6a, 0x105, 0x107] = some bs ∧
        decodeC c bs = some [0x5a, 0x61, 0x6a, 0x105, 0x107] :=
  seven_formats_roundtrip "ISO8859_2" "iso8859_2" [0x5a, 0x61, 0x6a, 0x105, 0x107]
    (by decide) (by decide)

/-! ### The total-failure branch is dead code (context for claim C4)

`iso8859_2` is always in the candidate list and its decode is total on real
bytes, so no non-empty input can make every decode attempt fail: the source's
"All decoding attempts failed" branch (lines 142–144) is unreachable. -/

theorem mapOpt_total {f : Nat → Option Nat} (l : List Nat)
    (h : ∀ b ∈ l, (f b).isSome) : ∃ t, mapOpt f l = some t := by
  induction l with
  | nil => exact ⟨[], rfl⟩
  | cons b rest ih =>
    obtain ⟨c, hc⟩ := Option.isSome_iff_exists.mp (h b (by simp))
    obtain ⟨ts, hts⟩ := ih (fun x hx => h x (by simp [hx]))
    exact ⟨c :: ts, by simp [mapOpt, hc, hts]⟩

set_option maxRecDepth 4000 in
theorem iso8859_2DecByte_total : ∀ b < 0x100, (iso8859_2DecByte b).isSome := by decide

theorem encodingsToTry_two (d : Option String) :
    ∃ tail, encodingsToTry d = "windows-1250" :: "iso8859_2" :: tail := by
  cases d with
  | none => exact ⟨[], rfl⟩
  | some e =>
    by_cases h : e ∈ legacyList
    · refine ⟨[], ?_⟩
      show (if e ∈ legacyList then legacyList else legacyList ++ [e]) = _
      rw [if_pos h]
      rfl
    · refine ⟨[e], ?_⟩
      show (if e ∈ legacyList then legacyList else legacyList ++ [e]) = _
      rw [if_neg h]
      rfl

theorem writePhase_ne_allDecodeFailed (t : List Nat) (s : String) :
    (writePhase t s).1 ≠ ConvOutcome.allDecodeFailed := by
  unfold writePhase
  cases hs : SUPPORTED_FORMATS s with
  | none => simp [hs]
  | some cn =>
    cases hcn : pyEncodeName cn t with
    | none => simp [hs, hcn]
    | some bs => simp [hs, hcn]

theorem convert_never_allDecodeFailed (raw : List Nat) (det : Detection) (fmt : String)
    (hb : ∀ b ∈ raw, b < 0x100) :
    (convert_encoding (some raw) det fmt).outcome ≠ .allDecodeFailed := by
  by_cases hne : raw = []
  · subst hne; simp [convert_encoding]
  · obtain ⟨t0, ht0⟩ : ∃ t0, decodeC Codec.iso8859_2 raw = some t0 :=
      mapOpt_total raw (fun b hb2 => iso8859_2DecByte_total b (hb b hb2))
    have hpdiso : pyDecode "iso8859_2" raw = .ok t0 := by
      have hl : lookupCodec "iso8859_2" = some Codec.iso8859_2 := by decide
      simp [pyDecode, hl, ht0]
    have hfd : ∀ tail, firstDecode ("windows-1250" :: "iso8859_2" :: tail) raw ≠
        .ok none := by
      intro tail
      cases hw : pyDecode "windows-1250" raw with
      | ok t1 => simp [firstDecode, hw]
      | unicodeError => simp [firstDecode, hw, hpdiso]
      | lookupError => simp [firstDecode, hw]
    have hdp : decodePhase raw det.encoding ≠ .ok none := by
      obtain ⟨tail, htail⟩ := encodingsToTry_two det.encoding
      unfold decodePhase
      cases hdet : det.encoding with
      | none => rw [hdet] at htail; rw [htail]; exact hfd tail
      | some e =>
        rw [hdet] at htail
        by_cases hu : hasUtf e
        · simp only [hu, if_true]
          cases hp : pyDecode e raw with
          | ok t1 => simp
          | unicodeError => rw [htail]; exact hfd tail
          | lookupError => simp
        · simp only [hu, Bool.false_eq_true, if_false]
          rw [htail]
          exact hfd tail
    cases hd : decodePhase raw det.encoding with
    | error u =>
      cases u
      simp [convert_encoding, hne, hd]
    | ok o =>
      cases o with
      | none => exact absurd hd hdp
      | some p =>
        obtain ⟨e0, t1⟩ := p
        simp only [convert_encoding, hne, if_false, hd]
        exact writePhase_ne_allDecodeFailed t1 (pyUpper fmt)

end TxtConv
